import Mathlib

/-
Verification development for the plugin control core (src/control/plugin_manager.go).

The Go file is embedded shallowly:
* `loadedPlugins` (the registry) becomes a structure holding the logical table
  contents (a `List loadedPlugin`) together with the shared iteration cursor
  `currentIter`.  The mutex is dropped: the embedding is sequential and every
  exported operation of the source is atomic under the registry mutex, so each
  operation is one Lean function from state to state.
* Go pointers `*loadedPlugin` are modelled by giving every record a `ref : Nat`
  field standing for its address; Go pointer comparison `lp == pl` becomes
  `lp.ref == pl.ref`, and in-table records are stored by value.
* The `for l.Next() { ... }` scan of `UnloadPlugin` becomes the structurally
  recursive `unloadScan`, driven by a fuel argument that is always called with
  `table.length + 1`, an upper bound (proved sufficient below) on the number of
  `Next` calls the loop can make before it exits.
* Fallible operations return `Except String Unit` carrying the exact error
  strings of the source.
* A second, lower-level model of the table (`Heap`/`SliceHdr` further down)
  embeds Go slice semantics with an explicit backing array, in order to settle
  the snapshot claim about `Table()`; `append` and the splice expression are
  translated there at the backing-array level.
-/

deriving instance DecidableEq for Except

namespace PulseControl

/-- pluginState is a string type in the source (`type pluginState string`). -/
abbrev pluginState := String

/-- DetectedState mirrors the source constant "detected". -/
def DetectedState : pluginState := "detected"

/-- LoadingState mirrors the source constant "loading". -/
def LoadingState : pluginState := "loading"

/-- LoadedState mirrors the source constant "loaded". -/
def LoadedState : pluginState := "loaded"

/-- UnloadedState mirrors the source constant "unloaded". -/
def UnloadedState : pluginState := "unloaded"

/-- Modelled from the spec: `plugin.PluginMeta` lives in the plugin package,
which is not under src/; the spec (section 6) gives its shape as
`meta: {name: string, version: int}`. -/
structure PluginMeta where
  Name : String
  Version : Int
deriving DecidableEq

/-- The `loadedPlugin` record of the source.  `ref` models the Go pointer
identity of the `*loadedPlugin` (fresh allocation = fresh `ref`); `PType`
is the source field `Type` (a reserved word in Lean), modelled as the
plugin-type string; `LoadedTime` models the `time.Time` as an integer
timestamp. -/
structure loadedPlugin where
  ref : Nat
  Meta : PluginMeta
  Path : String
  PType : String
  State : pluginState
  Token : String
  LoadedTime : Int
deriving DecidableEq

instance : Inhabited loadedPlugin := ⟨⟨0, ⟨"", 0⟩, "", "", "", "", 0⟩⟩

/-- Name accessor of the source (`lp.Meta.Name`). -/
def loadedPlugin.Name (lp : loadedPlugin) : String := lp.Meta.Name

/-- Version accessor of the source (`lp.Meta.Version`). -/
def loadedPlugin.Version (lp : loadedPlugin) : Int := lp.Meta.Version

/-- Status accessor of the source (`string(lp.State)`). -/
def loadedPlugin.Status (lp : loadedPlugin) : String := lp.State

/-- The registry: `table` is the logical contents of `*l.table` (the first
`len` elements of the backing slice) and `currentIter` is the shared
iteration cursor. -/
structure loadedPlugins where
  table : List loadedPlugin
  currentIter : Nat
deriving DecidableEq

/-- newLoadedPlugins: empty table, cursor 0. -/
def newLoadedPlugins : loadedPlugins := ⟨[], 0⟩

/-- Error message produced by `Append` on a duplicate pointer
("plugin already loaded at index " + strconv.Itoa(i)). -/
def appendErrMsg (i : Nat) : String := "plugin already loaded at index " ++ toString i

/-- The search loop inside `Append`: scan the table for a `pl` with
`lp == pl` (pointer comparison, i.e. equal `ref`), returning the index of the
first hit.  `i` is the running index of the Go `for i, pl := range` loop. -/
def findSameRef (t : List loadedPlugin) (lp : loadedPlugin) (i : Nat) : Option Nat :=
  match t with
  | [] => none
  | pl :: rest => if lp.ref == pl.ref then some i else findSameRef rest lp (i + 1)

/-- Append of the source: reject if the same record pointer is already in the
table, otherwise append at the end. -/
def loadedPlugins.Append (l : loadedPlugins) (lp : loadedPlugin) :
    Except String Unit × loadedPlugins :=
  match findSameRef l.table lp 0 with
  | some i => (.error (appendErrMsg i), l)
  | none => (.ok (), { l with table := l.table ++ [lp] })

/-- Table of the source returns `*l.table`; at the logical level this is the
current contents.  (The backing-array sharing of the returned slice is
modelled separately by the `Heap`/`SliceHdr` development below.) -/
def loadedPlugins.Table (l : loadedPlugins) : List loadedPlugin := l.table

/-- Result of `Get`: `ok` and `err` are the two Go return paths, while
`fault` marks the runtime panic that raw indexing `(*l.table)[index]`
raises when `index` is negative (the guard only checks the upper bound). -/
inductive GetResult where
  | ok (lp : loadedPlugin)
  | err (msg : String)
  | fault
deriving DecidableEq

/-- Get of the source.  The index is an `Int` because Go's `int` is signed;
the guard `index > len(*l.table)-1` is evaluated over the integers exactly
as in the source. -/
def loadedPlugins.Get (l : loadedPlugins) (index : Int) : GetResult :=
  if index > (l.table.length : Int) - 1 then .err "index out of range"
  else if 0 ≤ index then .ok (l.table.getD index.toNat default)
  else .fault

/-- splice of the source: `append((*l.table)[:index], (*l.table)[index+1:]...)`,
whose logical contents are take/drop. -/
def loadedPlugins.splice (l : loadedPlugins) (index : Nat) : loadedPlugins :=
  { l with table := l.table.take index ++ l.table.drop (index + 1) }

/-- NonblockingSplice of the source just calls splice. -/
def loadedPlugins.NonblockingSplice (l : loadedPlugins) (index : Nat) : loadedPlugins :=
  l.splice index

/-- Splice of the source: lock, splice, unlock; sequentially it is splice. -/
def loadedPlugins.Splice (l : loadedPlugins) (index : Nat) : loadedPlugins :=
  l.splice index

/-- Item of the source: `i := l.currentIter - 1; return i, (*l.table)[i]`.
Within the source's iteration protocol `Item` is only called right after a
successful `Next`, so the index is in range there; out of range the Go code
would panic, the model returns `default`. -/
def loadedPlugins.Item (l : loadedPlugins) : Nat × loadedPlugin :=
  (l.currentIter - 1, l.table.getD (l.currentIter - 1) default)

/-- Next of the source: increment the shared cursor; past the end, reset the
cursor to 0 and report false. -/
def loadedPlugins.Next (l : loadedPlugins) : Bool × loadedPlugins :=
  if l.currentIter + 1 > l.table.length then (false, { l with currentIter := 0 })
  else (true, { l with currentIter := l.currentIter + 1 })

/-- Modelled from the spec: the `CatalogedPlugin` argument of `UnloadPlugin`
is declared outside src/; per the spec (section 4.2) UnloadPlugin consumes
only the minimal read contract `{name() string, version() int}`. -/
structure CatalogedPlugin where
  Name : String
  Version : Int
deriving DecidableEq

/-- Modelled from the spec: response status enum of the plugin package
(section 6: `state: enum{Success, Error}`); `PluginSuccess` is the value the
source compares against. -/
inductive pluginResponseState where
  | PluginSuccess
  | PluginFailure
deriving DecidableEq

/-- Modelled from the spec: the handshake `plugin.Response` (section 6):
state, error message, meta, type, token. -/
structure Response where
  State : pluginResponseState
  ErrorMessage : String
  Meta : PluginMeta
  PType : String
  Token : String
deriving DecidableEq

/-- Modelled from the spec: the outcome of the external launcher collaborator
(`NewExecutablePlugin` / `Start` / `WaitForResponse`, section 6).  The three
error constructors carry the propagated error of the respective call
(spawn failure, start failure, wait failure: timeout or transport), and
`responded` carries the handshake response. -/
inductive LaunchOutcome where
  | newFailed (msg : String)
  | startFailed (msg : String)
  | waitFailed (msg : String)
  | responded (resp : Response)
deriving DecidableEq

/-- The manager of the source.  The key-pair fields (`privKey`, `pubKey`) are
omitted: they only feed `generateArgs`, whose output goes to the external
launcher and never influences the registry, which is what every claim is
about. -/
structure pluginManager where
  LoadedPlugins : loadedPlugins
deriving DecidableEq

/-- newPluginManager: fresh empty registry. -/
def newPluginManager : pluginManager := ⟨newLoadedPlugins⟩

/-- Error built by LoadPlugin when the handshake response is not a success:
`fmt.Errorf("Plugin loading did not succeed: %s\n", resp.ErrorMessage)`. -/
def loadRejectMsg (errorMessage : String) : String :=
  "Plugin loading did not succeed: " ++ errorMessage ++ "\n"

/-- LoadPlugin of the source.  The interaction with the spawned process is
an input (`outcome`), `now` stands for `time.Now()` and `freshRef` for the
address of the freshly allocated record (`new(loadedPlugin)`). -/
def pluginManager.LoadPlugin (p : pluginManager) (path : String)
    (outcome : LaunchOutcome) (now : Int) (freshRef : Nat) :
    Except String Unit × pluginManager :=
  let lPlugin0 : loadedPlugin :=
    { ref := freshRef
      Meta := ⟨"", 0⟩
      Path := path
      PType := ""
      State := DetectedState
      Token := ""
      LoadedTime := 0 }
  match outcome with
  | .newFailed msg => (.error msg, p)
  | .startFailed msg => (.error msg, p)
  | .waitFailed msg => (.error msg, p)
  | .responded resp =>
    if resp.State ≠ pluginResponseState.PluginSuccess then
      (.error (loadRejectMsg resp.ErrorMessage), p)
    else
      let lPlugin : loadedPlugin :=
        { lPlugin0 with
          Meta := resp.Meta
          PType := resp.PType
          Token := resp.Token
          LoadedTime := now
          State := LoadedState }
      let r := p.LoadedPlugins.Append lPlugin
      (r.1, { p with LoadedPlugins := r.2 })

/-- The identity comparison of the unload scan:
`pl.Name() == lp.Meta.Name && pl.Version() == lp.Meta.Version`. -/
def matchKey (name : String) (version : Int) (lp : loadedPlugin) : Bool :=
  name == lp.Meta.Name && version == lp.Meta.Version

/-- Error message of UnloadPlugin when no record matches the identity. -/
def unloadErrMsg (name : String) (version : Int) : String :=
  "plugin [" ++ name ++ "] -- [" ++ toString version ++
    "] not found (has it already been unloaded?)"

/-- Error message of UnloadPlugin when the matched record is not Loaded. -/
def invalidStateMsg : String := "Plugin must be in a LoadedState"

/-- The `for p.LoadedPlugins.Next() { ... }` loop of UnloadPlugin.  One
recursion step is one `Next` call: exit with cursor reset when the cursor
would pass the end, otherwise (cursor incremented) break if the plugin was
already found, else inspect `Item` and record the first identity match.
`fuel` only bounds the recursion; `table.length + 1` always suffices and is
what `UnloadPlugin` passes. -/
def unloadScan : Nat → loadedPlugins → String → Int →
    Option (Nat × loadedPlugin) → Option (Nat × loadedPlugin) × loadedPlugins
  | 0, l, _, _, found => (found, l)
  | fuel + 1, l, name, version, found =>
    if l.currentIter + 1 > l.table.length then
      (found, { l with currentIter := 0 })
    else
      let l' : loadedPlugins := { l with currentIter := l.currentIter + 1 }
      match found with
      | some fi => (some fi, l')
      | none =>
        let ip := l'.Item
        if matchKey name version ip.2 then
          unloadScan fuel l' name version (some ip)
        else
          unloadScan fuel l' name version none

/-- UnloadPlugin of the source: scan (under the held lock) for the first
record whose (name, version) matches, fail if absent, fail if its state is
not Loaded, otherwise splice it out at the found index. -/
def pluginManager.UnloadPlugin (p : pluginManager) (pl : CatalogedPlugin) :
    Except String Unit × pluginManager :=
  let r := unloadScan (p.LoadedPlugins.table.length + 1) p.LoadedPlugins
    pl.Name pl.Version none
  match r.1 with
  | none => (.error (unloadErrMsg pl.Name pl.Version), { p with LoadedPlugins := r.2 })
  | some (index, plugin) =>
    if plugin.State ≠ LoadedState then
      (.error invalidStateMsg, { p with LoadedPlugins := r.2 })
    else
      (.ok (), { p with LoadedPlugins := r.2.NonblockingSplice index })

/-- Registry states reachable from a fresh registry through the operations
named by the uniqueness claim: `Append`, `Splice`/`NonblockingSplice` (at an
in-range index; out of range the source panics), and the manager's
`LoadPlugin`/`UnloadPlugin`.  `Get` and `Table` do not mutate the registry
and need no constructor. -/
inductive Reachable : loadedPlugins → Prop where
  | init : Reachable newLoadedPlugins
  | append (l : loadedPlugins) (lp : loadedPlugin) :
      Reachable l → Reachable (l.Append lp).2
  | splice (l : loadedPlugins) (index : Nat) :
      index < l.table.length → Reachable l → Reachable (l.NonblockingSplice index)
  | load (l : loadedPlugins) (path : String) (outcome : LaunchOutcome)
      (now : Int) (freshRef : Nat) :
      Reachable l →
      Reachable (pluginManager.LoadPlugin ⟨l⟩ path outcome now freshRef).2.LoadedPlugins
  | unload (l : loadedPlugins) (pl : CatalogedPlugin) :
      Reachable l → Reachable (pluginManager.UnloadPlugin ⟨l⟩ pl).2.LoadedPlugins

/-- Formalisation of the uniqueness property claimed for the registry:
no two records that are both not Unloaded share (name, version). -/
def pairClash (a b : loadedPlugin) : Bool :=
  a.State != UnloadedState && b.State != UnloadedState &&
    a.Meta.Name == b.Meta.Name && a.Meta.Version == b.Meta.Version

/-- Formalisation of the uniqueness property over a table, pair by pair. -/
def identityUniqueNonUnloaded : List loadedPlugin → Bool
  | [] => true
  | lp :: rest => rest.all (fun q => !pairClash lp q) && identityUniqueNonUnloaded rest

/-
Backing-array model of the table, used for the snapshot claim about
`Table()`.  A Go slice value is a header (backing-array pointer, length,
capacity); `l.table` points at such a header and `Table()` returns a copy of
it, which keeps referring to the same backing array.  `Heap` is the store of
backing arrays (`arrId` is the array pointer, the stored list is the full
backing array, so capacity = stored length).  `append(*l.table, lp)` writes
in place at position `len` when spare capacity exists and otherwise
allocates a fresh array (the model grows to exactly `len + 1`; real Go
over-allocates, which only changes when a future append reallocates, not
the contents any header observes).  The splice expression
`append((*l.table)[:index], (*l.table)[index+1:]...)` never needs to grow,
so it always shifts elements down inside the same backing array, leaving
the old last element duplicated at position `len - 1`. -/

/-- A Go slice header: backing-array id and length. -/
structure SliceHdr where
  arrId : Nat
  len : Nat
deriving DecidableEq

/-- The store of backing arrays; an array id is an index into `arrs`. -/
structure Heap where
  arrs : List (List loadedPlugin)
deriving DecidableEq

/-- Dereference an array id. -/
def Heap.readArr (h : Heap) (id : Nat) : List loadedPlugin := h.arrs.getD id []

/-- The records a slice header observes: the first `len` cells of its
backing array. -/
def readSlice (h : Heap) (s : SliceHdr) : List loadedPlugin :=
  (h.readArr s.arrId).take s.len

/-- Table at the slice level: `*l.table` is the header itself; the returned
snapshot is the header value, still referring to the shared backing array. -/
def sliceTable (s : SliceHdr) : SliceHdr := s

/-- Go `append(*l.table, lp)` on the backing-array model. -/
def sliceAppend (h : Heap) (s : SliceHdr) (x : loadedPlugin) : SliceHdr × Heap :=
  let a := h.readArr s.arrId
  if s.len < a.length then
    (⟨s.arrId, s.len + 1⟩, ⟨h.arrs.set s.arrId (a.set s.len x)⟩)
  else
    (⟨h.arrs.length, s.len + 1⟩, ⟨h.arrs ++ [a.take s.len ++ [x]]⟩)

/-- Go `append((*l.table)[:index], (*l.table)[index+1:]...)` on the
backing-array model: cells before `index` keep their value, cells from
`index` to `len - 2` receive the value of their right neighbour, and cells
from `len - 1` on (including the spare capacity) are untouched. -/
def sliceSplice (h : Heap) (s : SliceHdr) (index : Nat) : SliceHdr × Heap :=
  let a := h.readArr s.arrId
  let a' := a.take index ++ (a.drop (index + 1)).take (s.len - 1 - index) ++
    a.drop (s.len - 1)
  (⟨s.arrId, s.len - 1⟩, ⟨h.arrs.set s.arrId a'⟩)

/-- Sample record: a Loaded collector "a" version 1. -/
def pA : loadedPlugin := ⟨10, ⟨"a", 1⟩, "/bin/a", "collector", LoadedState, "tokA", 100⟩

/-- Sample record: a Detected record with the same identity ("a", 1) as `pA`
but a distinct pointer. -/
def pDet : loadedPlugin := ⟨11, ⟨"a", 1⟩, "/bin/b", "collector", DetectedState, "tokB", 0⟩

/-- Sample record: a Loaded processor "c" version 2. -/
def pC : loadedPlugin := ⟨12, ⟨"c", 2⟩, "/bin/c", "processor", LoadedState, "tokC", 5⟩

/-- Sample record: a Loaded publisher "x" version 9. -/
def pX : loadedPlugin := ⟨13, ⟨"x", 9⟩, "/bin/x", "publisher", LoadedState, "tokX", 7⟩

/-- Sample record: a second Loaded record with identity ("a", 1) and a
pointer distinct from `pA` and `pDet`. -/
def pA2 : loadedPlugin := ⟨14, ⟨"a", 1⟩, "/bin/a2", "collector", LoadedState, "tokA2", 200⟩

/-! General list helpers used throughout the development. -/

theorem take_getD_drop {α : Type} (d : α) :
    ∀ (t : List α) (i : Nat), i < t.length →
      t = t.take i ++ t.getD i d :: t.drop (i + 1) := by
  intro t
  induction t with
  | nil => intro i h; simp at h
  | cons a t ih =>
    intro i h
    cases i with
    | zero => simp
    | succ i =>
      have h' : i < t.length := by simpa using h
      simpa using ih i h'

theorem splice_sublist {α : Type} (t : List α) (i : Nat) :
    (t.take i ++ t.drop (i + 1)).Sublist t := by
  have h1 : (t.drop i).drop 1 = t.drop (i + 1) := by
    rw [List.drop_drop, Nat.add_comm]
  have h2 : (t.drop (i + 1)).Sublist (t.drop i) := by
    rw [← h1]; exact List.drop_sublist 1 (t.drop i)
  have h3 : (t.take i ++ t.drop (i + 1)).Sublist (t.take i ++ t.drop i) :=
    h2.append_left (t.take i)
  rwa [List.take_append_drop] at h3

theorem getD_set_self {α : Type} :
    ∀ (l : List α) (i : Nat) (a : α) (d : α), i < l.length →
      (l.set i a).getD i d = a := by
  intro l
  induction l with
  | nil => intro i a d h; simp at h
  | cons x l ih =>
    intro i a d h
    cases i with
    | zero => simp
    | succ i => simpa using ih i a d (by simpa using h)

theorem take_set_of_le {α : Type} :
    ∀ (l : List α) (n : Nat) (a : α) (m : Nat), m ≤ n →
      (l.set n a).take m = l.take m := by
  intro l
  induction l with
  | nil => intro n a m h; simp
  | cons x l ih =>
    intro n a m h
    cases n with
    | zero =>
      have : m = 0 := Nat.le_zero.mp h
      simp [this]
    | succ n =>
      cases m with
      | zero => simp
      | succ m => simpa using ih n a m (Nat.le_of_succ_le_succ h)

theorem set_take_succ {α : Type} :
    ∀ (l : List α) (n : Nat) (a : α), n < l.length →
      (l.set n a).take (n + 1) = l.take n ++ [a] := by
  intro l
  induction l with
  | nil => intro n a h; simp at h
  | cons x l ih =>
    intro n a h
    cases n with
    | zero => simp
    | succ n => simpa using ih n a (by simpa using h)

theorem getD_append_left {α : Type} :
    ∀ (l₁ l₂ : List α) (i : Nat) (d : α), i < l₁.length →
      (l₁ ++ l₂).getD i d = l₁.getD i d := by
  intro l₁
  induction l₁ with
  | nil => intro l₂ i d h; simp at h
  | cons x l₁ ih =>
    intro l₂ i d h
    cases i with
    | zero => simp
    | succ i => simpa using ih l₂ i d (by simpa using h)

/-! Characterisation of the Append duplicate-pointer search. -/

theorem findSameRef_none_iff (lp : loadedPlugin) :
    ∀ (t : List loadedPlugin) (i : Nat),
      findSameRef t lp i = none ↔ ∀ pl ∈ t, lp.ref ≠ pl.ref := by
  intro t
  induction t with
  | nil => intro i; simp [findSameRef]
  | cons pl rest ih =>
    intro i
    rw [findSameRef]
    rcases hif : (lp.ref == pl.ref) with _ | _
    · have hne : lp.ref ≠ pl.ref := by simpa using hif
      simp [hif, ih (i + 1), hne]
    · have heq : lp.ref = pl.ref := by simpa using hif
      simp [hif, heq]

theorem Append_of_dup (l : loadedPlugins) (lp : loadedPlugin)
    (h : ∃ pl ∈ l.table, lp.ref = pl.ref) :
    (∃ i, (l.Append lp).1 = .error (appendErrMsg i)) ∧ (l.Append lp).2 = l := by
  have hne : findSameRef l.table lp 0 ≠ none := by
    intro hcontra
    obtain ⟨pl, hm, he⟩ := h
    exact (findSameRef_none_iff lp l.table 0).mp hcontra pl hm he
  obtain ⟨j, hj⟩ := Option.ne_none_iff_exists'.mp hne
  rw [loadedPlugins.Append, hj]
  exact ⟨⟨j, rfl⟩, rfl⟩

theorem Append_of_fresh (l : loadedPlugins) (lp : loadedPlugin)
    (h : ∀ pl ∈ l.table, lp.ref ≠ pl.ref) :
    (l.Append lp).1 = .ok () ∧ (l.Append lp).2.table = l.table ++ [lp] ∧
      (l.Append lp).2.currentIter = l.currentIter := by
  have hnone : findSameRef l.table lp 0 = none := (findSameRef_none_iff lp l.table 0).mpr h
  rw [loadedPlugins.Append, hnone]
  exact ⟨rfl, rfl, rfl⟩

/-- C4: appending a record reference already present in the table fails with
the duplicate-entry error and leaves the table unchanged; appending a
reference not present succeeds, places the record at the end and preserves
the insertion order of all existing records. -/
theorem C4_append_duplicate_or_fresh (l : loadedPlugins) (lp : loadedPlugin) :
    ((∃ pl ∈ l.table, lp.ref = pl.ref) →
      (∃ i, (l.Append lp).1 = .error (appendErrMsg i)) ∧ (l.Append lp).2.table = l.table) ∧
    ((∀ pl ∈ l.table, lp.ref ≠ pl.ref) →
      (l.Append lp).1 = .ok () ∧ (l.Append lp).2.table = l.table ++ [lp]) := by
  constructor
  · intro h
    obtain ⟨he, hst⟩ := Append_of_dup l lp h
    exact ⟨he, by rw [hst]⟩
  · intro h
    obtain ⟨he, ht, _⟩ := Append_of_fresh l lp h
    exact ⟨he, ht⟩

/-- C4 witness: a duplicate append of `pA` onto `[pA]` fails and keeps the
table, while a fresh append of `pC` succeeds and appends at the end. -/
theorem C4_append_duplicate_or_fresh_witness :
    (((⟨[pA], 0⟩ : loadedPlugins).Append pA).1 = .error (appendErrMsg 0) ∧
      ((⟨[pA], 0⟩ : loadedPlugins).Append pA).2.table = [pA]) ∧
    (((⟨[pA], 0⟩ : loadedPlugins).Append pC).1 = .ok () ∧
      ((⟨[pA], 0⟩ : loadedPlugins).Append pC).2.table = [pA] ++ [pC]) :=
  ⟨⟨by decide, ((C4_append_duplicate_or_fresh ⟨[pA], 0⟩ pA).1 ⟨pA, by decide, by decide⟩).2⟩,
   (C4_append_duplicate_or_fresh ⟨[pA], 0⟩ pC).2 (by decide)⟩

/-- C5: Get with index at least the length fails with the index-out-of-range
error; Get with an in-range non-negative index returns the record at that
position in insertion order. -/
theorem C5_get_spec (l : loadedPlugins) (index : Int) :
    ((l.table.length : Int) ≤ index → l.Get index = .err "index out of range") ∧
    (0 ≤ index → index < (l.table.length : Int) →
      l.Get index = .ok (l.table.getD index.toNat default)) := by
  constructor
  · intro h
    rw [loadedPlugins.Get, if_pos (by omega)]
  · intro h0 hlt
    rw [loadedPlugins.Get, if_neg (by omega), if_pos h0]

/-- C5 witness: on the one-element registry `[pA]`, Get 5 is out of range and
Get 0 returns `pA`. -/
theorem C5_get_spec_witness :
    (loadedPlugins.Get ⟨[pA], 0⟩ 5 = .err "index out of range") ∧
    (loadedPlugins.Get ⟨[pA], 0⟩ 0 = .ok (([pA] : List loadedPlugin).getD 0 default)) :=
  ⟨(C5_get_spec ⟨[pA], 0⟩ 5).1 (by decide),
   (C5_get_spec ⟨[pA], 0⟩ 0).2 (by decide) (by decide)⟩

/-- C10: Get only guards the upper bound; a negative index never takes the
IndexOutOfRange branch and instead reaches the raw slice indexing, which
faults (Go runtime panic). -/
theorem C10_get_negative_index (l : loadedPlugins) (index : Int) (h : index < 0) :
    l.Get index = .fault ∧ ∀ msg, l.Get index ≠ .err msg := by
  have hf : l.Get index = .fault := by
    rw [loadedPlugins.Get, if_neg (by omega), if_neg (by omega)]
  refine ⟨hf, fun msg hc => ?_⟩
  rw [hf] at hc
  exact GetResult.noConfusion hc

/-- C10 witness: Get (-1) on `[pA]` faults and is not the IndexOutOfRange
error. -/
theorem C10_get_negative_index_witness :
    loadedPlugins.Get ⟨[pA], 0⟩ (-1) = .fault ∧
      loadedPlugins.Get ⟨[pA], 0⟩ (-1) ≠ .err "index out of range" :=
  ⟨(C10_get_negative_index ⟨[pA], 0⟩ (-1) (by decide)).1,
   (C10_get_negative_index ⟨[pA], 0⟩ (-1) (by decide)).2 "index out of range"⟩

/-! Characterisation of the UnloadPlugin scan loop. -/

theorem unloadScan_zero (name : String) (version : Int) (l : loadedPlugins)
    (found : Option (Nat × loadedPlugin)) :
    unloadScan 0 l name version found = (found, l) := rfl

theorem unloadScan_none_step (name : String) (version : Int) (fuel : Nat)
    (t : List loadedPlugin) (c : Nat) :
    unloadScan (fuel + 1) ⟨t, c⟩ name version none =
      if c + 1 > t.length then (none, ⟨t, 0⟩)
      else if matchKey name version (t.getD c default) then
        unloadScan fuel ⟨t, c + 1⟩ name version (some (c, t.getD c default))
      else unloadScan fuel ⟨t, c + 1⟩ name version none := rfl

theorem unloadScan_some_step (name : String) (version : Int) (fi : Nat × loadedPlugin)
    (fuel : Nat) (t : List loadedPlugin) (c : Nat) :
    unloadScan (fuel + 1) ⟨t, c⟩ name version (some fi) =
      if c + 1 > t.length then (some fi, ⟨t, 0⟩) else (some fi, ⟨t, c + 1⟩) := rfl

/-- The scan never changes the table, only the cursor. -/
theorem unloadScan_table (name : String) (version : Int) :
    ∀ (fuel : Nat) (l : loadedPlugins) (found : Option (Nat × loadedPlugin)),
      (unloadScan fuel l name version found).2.table = l.table := by
  intro fuel
  induction fuel with
  | zero => intro l found; rfl
  | succ fuel ih =>
    intro l found
    obtain ⟨t, c⟩ := l
    cases found with
    | some fi =>
      rw [unloadScan_some_step]
      by_cases h : c + 1 > t.length
      · rw [if_pos h]
      · rw [if_neg h]
    | none =>
      rw [unloadScan_none_step]
      by_cases h : c + 1 > t.length
      · rw [if_pos h]
      · rw [if_neg h]
        by_cases hm : matchKey name version (t.getD c default) = true
        · rw [if_pos hm]; exact ih _ _
        · rw [if_neg hm]; exact ih _ _

/-- A scan that starts with the plugin already found returns it unchanged. -/
theorem unloadScan_some_fst (name : String) (version : Int) (fi : Nat × loadedPlugin) :
    ∀ (fuel : Nat) (l : loadedPlugins),
      (unloadScan fuel l name version (some fi)).1 = some fi := by
  intro fuel l
  cases fuel with
  | zero => rfl
  | succ fuel =>
    obtain ⟨t, c⟩ := l
    rw [unloadScan_some_step]
    by_cases h : c + 1 > t.length
    · rw [if_pos h]
    · rw [if_neg h]

/-- When no record at cursor position or beyond matches, the scan reports
not-found and resets the cursor to 0. -/
theorem unloadScan_nomatch (name : String) (version : Int) :
    ∀ (fuel : Nat) (t : List loadedPlugin) (c : Nat),
      t.length + 1 ≤ c + fuel → 1 ≤ fuel →
      (∀ i, c ≤ i → i < t.length → matchKey name version (t.getD i default) = false) →
      unloadScan fuel ⟨t, c⟩ name version none = (none, ⟨t, 0⟩) := by
  intro fuel
  induction fuel with
  | zero => intro t c hf h1 hm; exact absurd h1 (by omega)
  | succ fuel ih =>
    intro t c hf h1 hm
    rw [unloadScan_none_step]
    by_cases h : c + 1 > t.length
    · rw [if_pos h]
    · rw [if_neg h]
      have hc : c < t.length := by omega
      rw [if_neg (by rw [hm c (Nat.le_refl c) hc]; exact Bool.false_ne_true)]
      exact ih t (c + 1) (by omega) (by omega) (fun i hi1 hi2 => hm i (by omega) hi2)

/-- When the first match at cursor position or beyond sits at index `i`, the
scan returns `(i, record)` and leaves the cursor at `i + 2`, except when the
loop runs off the end (match at the last position), where the cursor is
reset to 0. -/
theorem unloadScan_found (name : String) (version : Int) :
    ∀ (fuel : Nat) (t : List loadedPlugin) (c i : Nat),
      t.length + 1 ≤ c + fuel → 1 ≤ fuel →
      c ≤ i → i < t.length →
      matchKey name version (t.getD i default) = true →
      (∀ j, c ≤ j → j < i → matchKey name version (t.getD j default) = false) →
      unloadScan fuel ⟨t, c⟩ name version none =
        (some (i, t.getD i default), ⟨t, if i + 2 > t.length then 0 else i + 2⟩) := by
  intro fuel
  induction fuel with
  | zero => intro t c i hf h1 _ _ _ _; exact absurd h1 (by omega)
  | succ fuel ih =>
    intro t c i hf h1 hci hi hm hfirst
    have hc : ¬ (c + 1 > t.length) := by omega
    rw [unloadScan_none_step, if_neg hc]
    rcases Nat.lt_or_ge c i with hlt | hge
    · rw [if_neg (by rw [hfirst c (Nat.le_refl c) hlt]; exact Bool.false_ne_true)]
      exact ih t (c + 1) i (by omega) (by omega) (by omega) hi hm
        (fun j hj1 hj2 => hfirst j (by omega) hj2)
    · have hieq : i = c := Nat.le_antisymm hge hci
      subst hieq
      rw [if_pos hm]
      have hfuel : 1 ≤ fuel := by omega
      cases fuel with
      | zero => exact absurd hfuel (by omega)
      | succ fuel2 =>
        rw [unloadScan_some_step]
        by_cases h2 : i + 1 + 1 > t.length
        · rw [if_pos h2, if_pos (by omega)]
        · rw [if_neg h2, if_neg (by omega)]

/-- A scan that starts at cursor `c` can only report a match index that is
at least `c`: the positions before the cursor are never examined. -/
theorem unloadScan_found_ge (name : String) (version : Int) :
    ∀ (fuel : Nat) (t : List loadedPlugin) (c i : Nat) (lp : loadedPlugin)
      (l' : loadedPlugins),
      unloadScan fuel ⟨t, c⟩ name version none = (some (i, lp), l') → c ≤ i := by
  intro fuel
  induction fuel with
  | zero =>
    intro t c i lp l' h
    rw [unloadScan_zero] at h
    exact Option.noConfusion (congrArg Prod.fst h)
  | succ fuel ih =>
    intro t c i lp l' h
    rw [unloadScan_none_step] at h
    by_cases hend : c + 1 > t.length
    · rw [if_pos hend] at h
      exact Option.noConfusion (congrArg Prod.fst h)
    · rw [if_neg hend] at h
      by_cases hm : matchKey name version (t.getD c default) = true
      · rw [if_pos hm] at h
        have hfst := congrArg Prod.fst h
        rw [unloadScan_some_fst] at hfst
        have : c = i := congrArg (fun o => (o.getD (0, default)).1) hfst
        omega
      · rw [if_neg hm] at h
        have := ih t (c + 1) i lp l' h
        omega

/-! UnloadPlugin level results. -/

/-- Splicing at a matching index removes exactly one matching record. -/
theorem splice_countP (p : loadedPlugin → Bool) (t : List loadedPlugin) (i : Nat)
    (hi : i < t.length) (hp : p (t.getD i default) = true) :
    (t.take i ++ t.drop (i + 1)).countP p + 1 = t.countP p := by
  conv_rhs => rw [take_getD_drop default t i hi]
  rw [List.countP_append, List.countP_append, List.countP_cons, hp]
  simp [Nat.add_assoc]

/-- C1 (amended): provided the shared iteration cursor is at or before the
index of the first record matching the identity, and that first matching
record is in Loaded state, UnloadPlugin returns no error, removes exactly
that one matching record, preserves the relative order of the remaining
records (the result is the take/drop splice, a sublist), and decreases the
length by exactly one. -/
theorem C1_unload_loaded_first_match (l : loadedPlugins) (pl : CatalogedPlugin) (i : Nat)
    (hi : i < l.table.length)
    (hm : matchKey pl.Name pl.Version (l.table.getD i default) = true)
    (hfirst : ∀ j, j < i → matchKey pl.Name pl.Version (l.table.getD j default) = false)
    (hstate : (l.table.getD i default).State = LoadedState)
    (hc : l.currentIter ≤ i) :
    (pluginManager.UnloadPlugin ⟨l⟩ pl).1 = .ok () ∧
    (pluginManager.UnloadPlugin ⟨l⟩ pl).2.LoadedPlugins.table =
      l.table.take i ++ l.table.drop (i + 1) ∧
    (pluginManager.UnloadPlugin ⟨l⟩ pl).2.LoadedPlugins.table.length + 1 = l.table.length ∧
    (pluginManager.UnloadPlugin ⟨l⟩ pl).2.LoadedPlugins.table.countP
      (matchKey pl.Name pl.Version) + 1 = l.table.countP (matchKey pl.Name pl.Version) ∧
    (pluginManager.UnloadPlugin ⟨l⟩ pl).2.LoadedPlugins.table.Sublist l.table := by
  obtain ⟨t, c⟩ := l
  dsimp only at hi hm hfirst hstate hc ⊢
  have hscan := unloadScan_found pl.Name pl.Version (t.length + 1) t c i
    (by omega) (by omega) hc hi hm (fun j _ hj2 => hfirst j hj2)
  unfold pluginManager.UnloadPlugin
  dsimp only
  rw [hscan]
  dsimp only
  rw [if_neg (by rw [hstate]; exact fun hcon => hcon rfl)]
  dsimp only [loadedPlugins.NonblockingSplice, loadedPlugins.splice]
  refine ⟨rfl, rfl, ?_, ?_, ?_⟩
  · have h1 : (t.take i).length = i := by
      rw [List.length_take]; omega
    have h2 : (t.drop (i + 1)).length = t.length - (i + 1) := List.length_drop _ _
    rw [List.length_append, h1, h2]; omega
  · exact splice_countP (matchKey pl.Name pl.Version) t i hi hm
  · exact splice_sublist t i

/-- C1 witness: unloading ("a", 1) from the singleton registry `[pA]` with
cursor 0 succeeds and empties the table. -/
theorem C1_unload_loaded_first_match_witness :
    (pluginManager.UnloadPlugin ⟨⟨[pA], 0⟩⟩ ⟨"a", 1⟩).1 = .ok () ∧
    (pluginManager.UnloadPlugin ⟨⟨[pA], 0⟩⟩ ⟨"a", 1⟩).2.LoadedPlugins.table = [] := by
  have h := C1_unload_loaded_first_match ⟨[pA], 0⟩ ⟨"a", 1⟩ 0 (by decide) (by decide)
    (fun j hj => absurd hj (Nat.not_lt_zero j)) (by decide) (by decide)
  exact ⟨h.1, by simpa using h.2.1⟩

/-- C1 counterexample: the claim as stated is false.  The reachable state
`[pDet, pA2]` (cursor 0) contains a record with identity ("a", 1) in Loaded
state (`pA2`), yet UnloadPlugin ("a", 1) returns an error (the first match
`pDet` is Detected) and removes nothing. -/
theorem C1_counterexample :
    Reachable ⟨[pDet, pA2], 0⟩ ∧
    (pA2 ∈ ([pDet, pA2] : List loadedPlugin) ∧
      pA2.Meta.Name = "a" ∧ pA2.Meta.Version = 1 ∧ pA2.State = LoadedState) ∧
    (pluginManager.UnloadPlugin ⟨⟨[pDet, pA2], 0⟩⟩ ⟨"a", 1⟩).1 ≠ .ok () ∧
    (pluginManager.UnloadPlugin ⟨⟨[pDet, pA2], 0⟩⟩ ⟨"a", 1⟩).1 = .error invalidStateMsg ∧
    (pluginManager.UnloadPlugin ⟨⟨[pDet, pA2], 0⟩⟩ ⟨"a", 1⟩).2.LoadedPlugins.table
      = [pDet, pA2] := by
  refine ⟨?_, ⟨by decide, by decide, by decide, by decide⟩, by decide, by decide, by decide⟩
  have h1 := Reachable.append newLoadedPlugins pDet Reachable.init
  rw [show (newLoadedPlugins.Append pDet).2 = ⟨[pDet], 0⟩ from by decide] at h1
  have h2 := Reachable.append ⟨[pDet], 0⟩ pA2 h1
  rw [show ((⟨[pDet], 0⟩ : loadedPlugins).Append pA2).2 = ⟨[pDet, pA2], 0⟩ from by decide] at h2
  exact h2

/-- C6: when no record in the table matches the identity, UnloadPlugin
fails with the not-found error, whose message carries the identity (name
and version), and the table is unchanged. -/
theorem C6_unload_absent (l : loadedPlugins) (pl : CatalogedPlugin)
    (habs : ∀ lp ∈ l.table, matchKey pl.Name pl.Version lp = false) :
    (pluginManager.UnloadPlugin ⟨l⟩ pl).1 = .error (unloadErrMsg pl.Name pl.Version) ∧
    (pluginManager.UnloadPlugin ⟨l⟩ pl).2.LoadedPlugins.table = l.table ∧
    (∃ s₁ s₂ s₃, unloadErrMsg pl.Name pl.Version =
      s₁ ++ pl.Name ++ s₂ ++ toString pl.Version ++ s₃) := by
  obtain ⟨t, c⟩ := l
  dsimp only at habs ⊢
  have hm : ∀ i, c ≤ i → i < t.length →
      matchKey pl.Name pl.Version (t.getD i default) = false := by
    intro i _ hi
    apply habs
    rw [List.getD_eq_getElem t default hi]
    exact List.getElem_mem hi
  have hscan := unloadScan_nomatch pl.Name pl.Version (t.length + 1) t c
    (by omega) (by omega) hm
  unfold pluginManager.UnloadPlugin
  dsimp only
  rw [hscan]
  exact ⟨rfl, rfl,
    ⟨"plugin [", "] -- [", "] not found (has it already been unloaded?)", rfl⟩⟩

/-- C6 witness: unloading ("a", 1) from `[pC]` fails with the not-found
message and leaves the table unchanged. -/
theorem C6_unload_absent_witness :
    (pluginManager.UnloadPlugin ⟨⟨[pC], 0⟩⟩ ⟨"a", 1⟩).1 = .error (unloadErrMsg "a" 1) ∧
    (pluginManager.UnloadPlugin ⟨⟨[pC], 0⟩⟩ ⟨"a", 1⟩).2.LoadedPlugins.table = [pC] ∧
    unloadErrMsg "a" 1 =
      "plugin [" ++ "a" ++ "] -- [" ++ toString (1 : Int) ++
        "] not found (has it already been unloaded?)" := by
  have h := C6_unload_absent ⟨[pC], 0⟩ ⟨"a", 1⟩ (by decide)
  exact ⟨h.1, h.2.1, rfl⟩

/-- C7 (amended): provided the shared iteration cursor is at or before the
index of the first record matching the identity, if that first matching
record is in a state other than Loaded, UnloadPlugin fails with the
invalid-state error and no record is removed. -/
theorem C7_unload_wrong_state (l : loadedPlugins) (pl : CatalogedPlugin) (i : Nat)
    (hi : i < l.table.length)
    (hm : matchKey pl.Name pl.Version (l.table.getD i default) = true)
    (hfirst : ∀ j, j < i → matchKey pl.Name pl.Version (l.table.getD j default) = false)
    (hstate : (l.table.getD i default).State ≠ LoadedState)
    (hc : l.currentIter ≤ i) :
    (pluginManager.UnloadPlugin ⟨l⟩ pl).1 = .error invalidStateMsg ∧
    (pluginManager.UnloadPlugin ⟨l⟩ pl).2.LoadedPlugins.table = l.table := by
  obtain ⟨t, c⟩ := l
  dsimp only at hi hm hfirst hstate hc ⊢
  have hscan := unloadScan_found pl.Name pl.Version (t.length + 1) t c i
    (by omega) (by omega) hc hi hm (fun j _ hj2 => hfirst j hj2)
  unfold pluginManager.UnloadPlugin
  dsimp only
  rw [hscan]
  dsimp only
  rw [if_pos hstate]
  exact ⟨rfl, rfl⟩

/-- C7 witness: unloading ("a", 1) from `[pDet]` (cursor 0) fails with the
invalid-state error and removes nothing. -/
theorem C7_unload_wrong_state_witness :
    (pluginManager.UnloadPlugin ⟨⟨[pDet], 0⟩⟩ ⟨"a", 1⟩).1 = .error invalidStateMsg ∧
    (pluginManager.UnloadPlugin ⟨⟨[pDet], 0⟩⟩ ⟨"a", 1⟩).2.LoadedPlugins.table = [pDet] := by
  have h := C7_unload_wrong_state ⟨[pDet], 0⟩ ⟨"a", 1⟩ 0 (by decide) (by decide)
    (fun j hj => absurd hj (Nat.not_lt_zero j)) (by decide) (by decide)
  exact h

/-- C7 counterexample: the claim as stated is false.  In the reachable state
with table `[pDet]` and stale cursor 2, the first (index 0) record matches
("a", 1) and is not Loaded, yet UnloadPlugin fails with the not-found error
rather than the invalid-state error. -/
theorem C7_counterexample :
    Reachable ⟨[pDet], 2⟩ ∧
    matchKey "a" 1 (([pDet] : List loadedPlugin).getD 0 default) = true ∧
    (([pDet] : List loadedPlugin).getD 0 default).State ≠ LoadedState ∧
    (pluginManager.UnloadPlugin ⟨⟨[pDet], 2⟩⟩ ⟨"a", 1⟩).1 = .error (unloadErrMsg "a" 1) ∧
    (pluginManager.UnloadPlugin ⟨⟨[pDet], 2⟩⟩ ⟨"a", 1⟩).1 ≠ .error invalidStateMsg := by
  refine ⟨?_, by decide, by decide, by decide, by decide⟩
  have h1 := Reachable.append newLoadedPlugins pX Reachable.init
  rw [show (newLoadedPlugins.Append pX).2 = ⟨[pX], 0⟩ from by decide] at h1
  have h2 := Reachable.append ⟨[pX], 0⟩ pDet h1
  rw [show ((⟨[pX], 0⟩ : loadedPlugins).Append pDet).2 = ⟨[pX, pDet], 0⟩ from by decide] at h2
  have h3 := Reachable.unload ⟨[pX, pDet], 0⟩ ⟨"x", 9⟩ h2
  rw [show (pluginManager.UnloadPlugin ⟨⟨[pX, pDet], 0⟩⟩ ⟨"x", 9⟩).2.LoadedPlugins
      = ⟨[pDet], 2⟩ from by decide] at h3
  exact h3

/-- C9: an UnloadPlugin whose first match (from the cursor) sits before the
last table position leaves the shared cursor at the non-zero value `i + 2`
instead of resetting it; and a scan that starts at cursor `c` can only find
matches at indices at least `c`, so the next scan skips the first `c`
positions instead of starting at position zero. -/
theorem C9_stale_cursor :
    (∀ (l : loadedPlugins) (pl : CatalogedPlugin) (i : Nat),
      i < l.table.length →
      matchKey pl.Name pl.Version (l.table.getD i default) = true →
      (∀ j, j < i → matchKey pl.Name pl.Version (l.table.getD j default) = false) →
      l.currentIter ≤ i → i + 1 < l.table.length →
      (pluginManager.UnloadPlugin ⟨l⟩ pl).2.LoadedPlugins.currentIter = i + 2 ∧
      (pluginManager.UnloadPlugin ⟨l⟩ pl).2.LoadedPlugins.currentIter ≠ 0) ∧
    (∀ (fuel : Nat) (t : List loadedPlugin) (name : String) (version : Int)
      (c i : Nat) (lp : loadedPlugin) (l' : loadedPlugins),
      unloadScan fuel ⟨t, c⟩ name version none = (some (i, lp), l') → c ≤ i) := by
  constructor
  · intro l pl i hi hm hfirst hc hlast
    obtain ⟨t, c⟩ := l
    dsimp only at hi hm hfirst hc hlast ⊢
    have hscan := unloadScan_found pl.Name pl.Version (t.length + 1) t c i
      (by omega) (by omega) hc hi hm (fun j _ hj2 => hfirst j hj2)
    rw [show (if i + 2 > t.length then 0 else i + 2) = i + 2 from if_neg (by omega)] at hscan
    unfold pluginManager.UnloadPlugin
    dsimp only
    rw [hscan]
    dsimp only
    by_cases hs : (t.getD i default).State ≠ LoadedState
    · rw [if_pos hs]
      exact ⟨rfl, show i + 2 ≠ 0 by omega⟩
    · rw [if_neg hs]
      dsimp only [loadedPlugins.NonblockingSplice, loadedPlugins.splice]
      exact ⟨rfl, show i + 2 ≠ 0 by omega⟩
  · intro fuel t name version c i lp l' h
    exact unloadScan_found_ge name version fuel t c i lp l' h

/-- C9 witness: unloading ("a", 1) from `[pA, pC]` (match at index 0, before
the last position) leaves the cursor at 2; and the concrete scan of `[pX, pC, pA]`
from cursor 2 finds its match at index 2, not before the cursor. -/
theorem C9_stale_cursor_witness :
    ((pluginManager.UnloadPlugin ⟨⟨[pA, pC], 0⟩⟩ ⟨"a", 1⟩).2.LoadedPlugins.currentIter = 2 ∧
      (pluginManager.UnloadPlugin ⟨⟨[pA, pC], 0⟩⟩ ⟨"a", 1⟩).2.LoadedPlugins.currentIter ≠ 0) ∧
    (2 : Nat) ≤ 2 := by
  refine ⟨?_, ?_⟩
  · have h := C9_stale_cursor.1 ⟨[pA, pC], 0⟩ ⟨"a", 1⟩ 0 (by decide) (by decide)
      (fun j hj => absurd hj (Nat.not_lt_zero j)) (by decide) (by decide)
    simpa using h
  · exact C9_stale_cursor.2 4 [pX, pC, pA] "a" 1 2 2 pA ⟨[pX, pC, pA], 0⟩ (by decide)

/-! Reference uniqueness under reachability (C2). -/

/-- Append preserves the pairwise distinctness of the stored record
pointers. -/
theorem Append_refsNodup (l : loadedPlugins) (lp : loadedPlugin)
    (h : (l.table.map loadedPlugin.ref).Nodup) :
    ((l.Append lp).2.table.map loadedPlugin.ref).Nodup := by
  cases hf : findSameRef l.table lp 0 with
  | some i =>
    simp only [loadedPlugins.Append, hf]
    exact h
  | none =>
    have hfresh : ∀ pl ∈ l.table, lp.ref ≠ pl.ref := (findSameRef_none_iff lp l.table 0).mp hf
    simp only [loadedPlugins.Append, hf]
    rw [List.map_append, List.nodup_append]
    refine ⟨h, by simp, ?_⟩
    intro x hx hx2
    obtain ⟨pl, hpl, hrefeq⟩ := List.mem_map.mp hx
    have hxeq : x = lp.ref := by simpa using hx2
    exact hfresh pl hpl (hrefeq.trans hxeq).symm

/-- An Append that reports an error leaves the registry untouched. -/
theorem Append_error_unchanged (l : loadedPlugins) (lp : loadedPlugin) (e : String)
    (h : (l.Append lp).1 = .error e) : (l.Append lp).2 = l := by
  cases hf : findSameRef l.table lp 0 with
  | some i => simp only [loadedPlugins.Append, hf]
  | none =>
    simp only [loadedPlugins.Append, hf] at h
    exact Except.noConfusion h

/-- The registry after LoadPlugin is either untouched or the result of an
Append of some record. -/
theorem LoadPlugin_registry (p : pluginManager) (path : String) (outcome : LaunchOutcome)
    (now : Int) (freshRef : Nat) :
    (p.LoadPlugin path outcome now freshRef).2.LoadedPlugins = p.LoadedPlugins ∨
    ∃ lp, (p.LoadPlugin path outcome now freshRef).2.LoadedPlugins =
      (p.LoadedPlugins.Append lp).2 := by
  cases outcome with
  | newFailed msg => exact Or.inl rfl
  | startFailed msg => exact Or.inl rfl
  | waitFailed msg => exact Or.inl rfl
  | responded resp =>
    by_cases hs : resp.State ≠ pluginResponseState.PluginSuccess
    · left
      simp only [pluginManager.LoadPlugin]
      rw [if_pos hs]
    · right
      refine ⟨⟨freshRef, resp.Meta, path, resp.PType, LoadedState, resp.Token, now⟩, ?_⟩
      simp only [pluginManager.LoadPlugin]
      rw [if_neg hs]

/-- The table after UnloadPlugin is either untouched or a take/drop splice
of the old table. -/
theorem UnloadPlugin_table_cases (p : pluginManager) (pl : CatalogedPlugin) :
    (p.UnloadPlugin pl).2.LoadedPlugins.table = p.LoadedPlugins.table ∨
    ∃ i, (p.UnloadPlugin pl).2.LoadedPlugins.table =
      p.LoadedPlugins.table.take i ++ p.LoadedPlugins.table.drop (i + 1) := by
  have htab := unloadScan_table pl.Name pl.Version (p.LoadedPlugins.table.length + 1)
    p.LoadedPlugins none
  rcases hscan : unloadScan (p.LoadedPlugins.table.length + 1) p.LoadedPlugins
      pl.Name pl.Version none with ⟨found, l₂⟩
  rw [hscan] at htab
  unfold pluginManager.UnloadPlugin
  rw [hscan]
  dsimp only
  cases found with
  | none => exact Or.inl htab
  | some fi =>
    obtain ⟨i, q⟩ := fi
    dsimp only
    by_cases hs : q.State ≠ LoadedState
    · rw [if_pos hs]
      exact Or.inl htab
    · rw [if_neg hs]
      refine Or.inr ⟨i, ?_⟩
      dsimp only [loadedPlugins.NonblockingSplice, loadedPlugins.splice]
      rw [htab]

/-- C2 (amended): in every registry state reachable by Append,
Splice/NonblockingSplice, LoadPlugin and UnloadPlugin, the record
reference (pointer identity) is unique within the table.  (The claimed
uniqueness of (name, version) among non-Unloaded records does not hold:
see the counterexample.) -/
theorem C2_reference_unique (l : loadedPlugins) (h : Reachable l) :
    (l.table.map loadedPlugin.ref).Nodup := by
  induction h with
  | init => simp [newLoadedPlugins]
  | append l' lp _ ih => exact Append_refsNodup l' lp ih
  | splice l' index _ _ ih =>
    have hsub := (splice_sublist l'.table index).map loadedPlugin.ref
    exact ih.sublist hsub
  | load l' path outcome now freshRef _ ih =>
    rcases LoadPlugin_registry ⟨l'⟩ path outcome now freshRef with he | ⟨lp, he⟩
    · rw [he]; exact ih
    · rw [he]; exact Append_refsNodup l' lp ih
  | unload l' pl _ ih =>
    rcases UnloadPlugin_table_cases ⟨l'⟩ pl with he | ⟨i, he⟩
    · rw [he]; exact ih
    · rw [he]
      exact ih.sublist ((splice_sublist l'.table i).map loadedPlugin.ref)

/-- C2 witness: the reachable one-element registry `[pA]` has pairwise
distinct record references. -/
theorem C2_reference_unique_witness :
    ((⟨[pA], 0⟩ : loadedPlugins).table.map loadedPlugin.ref).Nodup := by
  have h1 := Reachable.append newLoadedPlugins pA Reachable.init
  rw [show (newLoadedPlugins.Append pA).2 = ⟨[pA], 0⟩ from by decide] at h1
  exact C2_reference_unique ⟨[pA], 0⟩ h1

/-- C2 counterexample: the claim as stated is false.  Two distinct record
pointers with the same identity ("a", 1), both in Loaded (hence
non-Unloaded) state, are reachable by two plain Appends: Append checks only
pointer identity, not the logical key. -/
theorem C2_counterexample :
    Reachable ⟨[pA, pA2], 0⟩ ∧
    pA.State ≠ UnloadedState ∧ pA2.State ≠ UnloadedState ∧
    pA.Meta = pA2.Meta ∧
    identityUniqueNonUnloaded (⟨[pA, pA2], 0⟩ : loadedPlugins).table = false := by
  refine ⟨?_, by decide, by decide, by decide, by decide⟩
  have h1 := Reachable.append newLoadedPlugins pA Reachable.init
  rw [show (newLoadedPlugins.Append pA).2 = ⟨[pA], 0⟩ from by decide] at h1
  have h2 := Reachable.append ⟨[pA], 0⟩ pA2 h1
  rw [show ((⟨[pA], 0⟩ : loadedPlugins).Append pA2).2 = ⟨[pA, pA2], 0⟩ from by decide] at h2
  exact h2

/-! LoadPlugin failure behaviour (C8). -/

/-- C8: a handshake response whose state is not Success makes LoadPlugin
fail with the rejection error carrying the plugin-reported message and
leaves the table unchanged (the record is never appended); and, in
general, every LoadPlugin call that returns an error leaves the table
unchanged. -/
theorem C8_load_failure (p : pluginManager) :
    (∀ (path : String) (resp : Response) (now : Int) (freshRef : Nat),
      resp.State ≠ pluginResponseState.PluginSuccess →
      (p.LoadPlugin path (.responded resp) now freshRef).1 =
        .error (loadRejectMsg resp.ErrorMessage) ∧
      (p.LoadPlugin path (.responded resp) now freshRef).2.LoadedPlugins.table =
        p.LoadedPlugins.table) ∧
    (∀ (path : String) (outcome : LaunchOutcome) (now : Int) (freshRef : Nat) (e : String),
      (p.LoadPlugin path outcome now freshRef).1 = .error e →
      (p.LoadPlugin path outcome now freshRef).2.LoadedPlugins.table =
        p.LoadedPlugins.table) := by
  constructor
  · intro path resp now freshRef hs
    simp only [pluginManager.LoadPlugin]
    rw [if_pos hs]
    exact ⟨rfl, rfl⟩
  · intro path outcome now freshRef e herr
    cases outcome with
    | newFailed msg => rfl
    | startFailed msg => rfl
    | waitFailed msg => rfl
    | responded resp =>
      by_cases hs : resp.State ≠ pluginResponseState.PluginSuccess
      · simp only [pluginManager.LoadPlugin]
        rw [if_pos hs]
      · simp only [pluginManager.LoadPlugin] at herr ⊢
        rw [if_neg hs] at herr ⊢
        dsimp only at herr ⊢
        rw [Append_error_unchanged p.LoadedPlugins _ e herr]

/-- C8 witness: a rejected handshake ("bad config") on a fresh manager
returns the rejection error and keeps the empty table; and a concrete
wait failure also keeps the table. -/
theorem C8_load_failure_witness :
    ((newPluginManager.LoadPlugin "/bin/a"
        (.responded ⟨.PluginFailure, "bad config", ⟨"a", 1⟩, "collector", "t"⟩) 0 0).1 =
      .error (loadRejectMsg "bad config") ∧
     (newPluginManager.LoadPlugin "/bin/a"
        (.responded ⟨.PluginFailure, "bad config", ⟨"a", 1⟩, "collector", "t"⟩) 0 0).2.LoadedPlugins.table =
      newPluginManager.LoadedPlugins.table) ∧
    (newPluginManager.LoadPlugin "/bin/a" (.waitFailed "timeout") 0 0).2.LoadedPlugins.table =
      newPluginManager.LoadedPlugins.table :=
  ⟨(C8_load_failure newPluginManager).1 "/bin/a"
      ⟨.PluginFailure, "bad config", ⟨"a", 1⟩, "collector", "t"⟩ 0 0 (by decide),
   (C8_load_failure newPluginManager).2 "/bin/a" (.waitFailed "timeout") 0 0 "timeout" (by decide)⟩

/-! Snapshot behaviour of Table() on the backing-array model (C3). -/

theorem getD_append_length {α : Type} :
    ∀ (l : List α) (y : α) (d : α), (l ++ [y]).getD l.length d = y := by
  intro l
  induction l with
  | nil => intro y d; rfl
  | cons x l ih => intro y d; exact ih y d

/-- A later append never changes what a previously taken snapshot header
observes: an in-place append writes at cell `len`, beyond every snapshot
cell, and a reallocating append builds a fresh array. -/
theorem sliceAppend_snapshot_frame (h : Heap) (s : SliceHdr) (x : loadedPlugin)
    (hid : s.arrId < h.arrs.length) :
    readSlice (sliceAppend h s x).2 s = readSlice h s := by
  simp only [sliceAppend, readSlice, Heap.readArr]
  by_cases hc : s.len < (h.arrs.getD s.arrId []).length
  · rw [if_pos hc]
    dsimp only
    rw [getD_set_self _ _ _ _ hid]
    exact take_set_of_le _ _ _ _ (Nat.le_refl s.len)
  · rw [if_neg hc]
    dsimp only
    rw [getD_append_left _ _ _ _ hid]

/-- The backing array rebuilt by the splice expression. -/
theorem sliceSplice_arr (h : Heap) (s : SliceHdr) (index : Nat)
    (hid : s.arrId < h.arrs.length) :
    (sliceSplice h s index).2.readArr s.arrId =
      (h.readArr s.arrId).take index ++
        ((h.readArr s.arrId).drop (index + 1)).take (s.len - 1 - index) ++
        (h.readArr s.arrId).drop (s.len - 1) := by
  simp only [sliceSplice, Heap.readArr]
  exact getD_set_self _ _ _ _ hid

/-- The splice expression keeps the backing array length. -/
theorem sliceSplice_arr_length (h : Heap) (s : SliceHdr) (index : Nat)
    (hid : s.arrId < h.arrs.length)
    (hwf : s.len ≤ (h.readArr s.arrId).length) (hidx : index < s.len) :
    ((sliceSplice h s index).2.readArr s.arrId).length =
      (h.readArr s.arrId).length := by
  rw [sliceSplice_arr h s index hid]
  simp only [List.length_append, List.length_take, List.length_drop]
  omega

/-- A later splice at `index` preserves the snapshot cells before `index`
and the snapshot length, but shifts the shared cells from `index` on. -/
theorem sliceSplice_snapshot_frame (h : Heap) (s : SliceHdr) (index : Nat)
    (hid : s.arrId < h.arrs.length)
    (hwf : s.len ≤ (h.readArr s.arrId).length) (hidx : index < s.len) :
    (readSlice (sliceSplice h s index).2 s).take index = (readSlice h s).take index ∧
    (readSlice (sliceSplice h s index).2 s).length = (readSlice h s).length := by
  have htk : ((h.readArr s.arrId).take index).length = index := by
    rw [List.length_take]; omega
  have hR : (readSlice h s).take index = (h.readArr s.arrId).take index := by
    simp only [readSlice]
    rw [List.take_take, Nat.min_eq_left (Nat.le_of_lt hidx)]
  have hL : (readSlice (sliceSplice h s index).2 s).take index =
      (h.readArr s.arrId).take index := by
    simp only [readSlice]
    rw [List.take_take, Nat.min_eq_left (Nat.le_of_lt hidx)]
    rw [sliceSplice_arr h s index hid]
    rw [List.append_assoc]
    rw [List.take_append_of_le_length (le_of_eq htk.symm)]
    rw [List.take_take, Nat.min_self]
  constructor
  · rw [hL, hR]
  · simp only [readSlice]
    rw [List.length_take, List.length_take, sliceSplice_arr_length h s index hid hwf hidx]

/-- Correspondence with the logical model: the slice returned by the
append expression observes the old contents plus the new record. -/
theorem sliceAppend_view (h : Heap) (s : SliceHdr) (x : loadedPlugin)
    (hid : s.arrId < h.arrs.length)
    (hwf : s.len ≤ (h.readArr s.arrId).length) :
    readSlice (sliceAppend h s x).2 (sliceAppend h s x).1 = readSlice h s ++ [x] := by
  simp only [sliceAppend, readSlice, Heap.readArr]
  by_cases hc : s.len < (h.arrs.getD s.arrId []).length
  · rw [if_pos hc]
    dsimp only
    rw [getD_set_self _ _ _ _ hid]
    exact set_take_succ _ _ _ hc
  · rw [if_neg hc]
    dsimp only
    have hwf2 : s.len ≤ (h.arrs.getD s.arrId []).length := hwf
    have hlen : s.len = (h.arrs.getD s.arrId []).length := by omega
    rw [getD_append_length]
    have h1 : ((h.arrs.getD s.arrId []).take s.len ++ [x]).length = s.len + 1 := by
      simp only [List.length_append, List.length_take, List.length_singleton]
      omega
    rw [List.take_of_length_le (le_of_eq h1)]

/-- Correspondence with the logical model: the slice returned by the
splice expression observes the take/drop removal of the old contents. -/
theorem sliceSplice_view (h : Heap) (s : SliceHdr) (index : Nat)
    (hid : s.arrId < h.arrs.length)
    (hwf : s.len ≤ (h.readArr s.arrId).length) (hidx : index < s.len) :
    readSlice (sliceSplice h s index).2 (sliceSplice h s index).1 =
      (readSlice h s).take index ++ (readSlice h s).drop (index + 1) := by
  have hA := sliceSplice_arr h s index hid
  show ((sliceSplice h s index).2.readArr s.arrId).take (s.len - 1) = _
  rw [hA]
  have h1 : ((h.readArr s.arrId).take index).length = index := by
    rw [List.length_take]; omega
  have h2 : (((h.readArr s.arrId).drop (index + 1)).take (s.len - 1 - index)).length
      = s.len - 1 - index := by
    rw [List.length_take, List.length_drop]; omega
  rw [List.take_append_of_le_length (by rw [List.length_append, h1, h2]; omega)]
  rw [List.take_of_length_le (by rw [List.length_append, h1, h2]; omega)]
  show _ = ((h.readArr s.arrId).take s.len).take index ++
    ((h.readArr s.arrId).take s.len).drop (index + 1)
  rw [List.take_take, Nat.min_eq_left (Nat.le_of_lt hidx)]
  rw [List.drop_take s.len (index + 1) (h.readArr s.arrId)]
  have h3 : s.len - (index + 1) = s.len - 1 - index := by omega
  rw [h3]

/-- C3 (amended): a snapshot taken via Table() is the slice header; a later
append on the live table changes neither the snapshot's length nor any
record it observes, while a later splice at `index` keeps the snapshot's
length and the records it observes before `index` — the counterexample
shows that the records at positions `index` and beyond CAN be retroactively
changed, because the splice shifts records inside the shared backing
array. -/
theorem C3_snapshot_frame (h : Heap) (live : SliceHdr) (x : loadedPlugin) (index : Nat)
    (hid : live.arrId < h.arrs.length)
    (hwf : live.len ≤ (h.readArr live.arrId).length) :
    (readSlice (sliceAppend h live x).2 (sliceTable live) = readSlice h (sliceTable live)) ∧
    (index < live.len →
      (readSlice (sliceSplice h live index).2 (sliceTable live)).take index =
        (readSlice h (sliceTable live)).take index ∧
      (readSlice (sliceSplice h live index).2 (sliceTable live)).length =
        (readSlice h (sliceTable live)).length) := by
  refine ⟨sliceAppend_snapshot_frame h live x hid, fun hidx => ?_⟩
  exact sliceSplice_snapshot_frame h live index hid hwf hidx

/-- C3 witness: on the backing array `[pA, pC]` with live header of length
2, an append keeps the snapshot view, and a splice at index 1 keeps the
cell before index 1 and the snapshot length. -/
theorem C3_snapshot_frame_witness :
    (readSlice (sliceAppend ⟨[[pA, pC]]⟩ ⟨0, 2⟩ pX).2 (sliceTable ⟨0, 2⟩) =
      readSlice ⟨[[pA, pC]]⟩ (sliceTable ⟨0, 2⟩)) ∧
    ((readSlice (sliceSplice ⟨[[pA, pC]]⟩ ⟨0, 2⟩ 1).2 (sliceTable ⟨0, 2⟩)).take 1 =
      (readSlice ⟨[[pA, pC]]⟩ (sliceTable ⟨0, 2⟩)).take 1 ∧
     (readSlice (sliceSplice ⟨[[pA, pC]]⟩ ⟨0, 2⟩ 1).2 (sliceTable ⟨0, 2⟩)).length =
      (readSlice ⟨[[pA, pC]]⟩ (sliceTable ⟨0, 2⟩)).length) :=
  ⟨(C3_snapshot_frame ⟨[[pA, pC]]⟩ ⟨0, 2⟩ pX 1 (by decide) (by decide)).1,
   (C3_snapshot_frame ⟨[[pA, pC]]⟩ ⟨0, 2⟩ pX 1 (by decide) (by decide)).2 (by decide)⟩

/-- C3 counterexample: the claim as stated is false.  Take the snapshot of
the live table `[pA, pC]` via Table(); position 0 of the snapshot holds
`pA`.  After a splice at index 0 on the live table, position 0 of that same
snapshot observes `pC`: the splice shifted the shared backing array, so a
subsequent splice DOES retroactively change a previously taken snapshot's
membership. -/
theorem C3_counterexample :
    0 < (readSlice ⟨[[pA, pC]]⟩ (sliceTable ⟨0, 2⟩)).length ∧
    (readSlice ⟨[[pA, pC]]⟩ (sliceTable ⟨0, 2⟩)).getD 0 default = pA ∧
    (readSlice (sliceSplice ⟨[[pA, pC]]⟩ ⟨0, 2⟩ 0).2 (sliceTable ⟨0, 2⟩)).getD 0 default = pC ∧
    pA ≠ pC := by decide

end PulseControl
